import Mathlib

/-!
# Verification of the HLS segment-acquisition engine

Shallow embedding of the core download engine of the repository
(`src/logic/native_downloader.py`, `src/logic/browser_downloader.py`,
`src/logic/native_hls_downloader.py`,
`src/logic/playwright_downloader - (穩定版).py`) and proofs of the
spec's testable properties over it.

Byte strings are modelled as `List Nat` (one `Nat` per byte).  Network
traffic is modelled by explicit response parameters: a response is
`Option (Nat × List Nat)` — `none` is a transport error (a raised
exception in the Python code), `some (status, body)` is an HTTP reply.
-/

namespace HLSEngine

/-- Big-endian byte encoding of `n` on `len` bytes; embeds Python's
`n.to_bytes(len, 'big')` (truncating high bytes like the source would
only for values that fit, which all sequence numbers used here do). -/
def natToBytesBE (n len : Nat) : List Nat :=
  (List.range len).map (fun k => n / 256 ^ (len - 1 - k) % 256)

/-- Python truthiness of an optional byte string: `None` and `b""` are
falsy, non-empty bytes are truthy. -/
def bytesTruthy : Option (List Nat) → Bool
  | none => false
  | some l => !l.isEmpty

/-- Embeds `seq_num = seg.media_sequence if seg.media_sequence else i`
(`native_downloader.py` line 104): the parsed media-sequence number is
used when it is present and non-zero (Python truthiness), otherwise the
zero-based enumeration index `i` of the segment. -/
def derivedSeqNum (mediaSeq : Option Nat) (i : Nat) : Nat :=
  match mediaSeq with
  | none => i
  | some n => if n = 0 then i else n

/-- Embeds the IV selection of `native_downloader.py` lines 102-105:
`current_iv = iv; if key and not current_iv: current_iv =
seq_num.to_bytes(16, 'big')`.  `keyTruthy` is the truthiness of the
fetched key bytes, `declaredIV` the playlist-declared IV (if any). -/
def derivedIV (keyTruthy : Bool) (declaredIV : Option (List Nat))
    (mediaSeq : Option Nat) (i : Nat) : Option (List Nat) :=
  if keyTruthy && !(bytesTruthy declaredIV) then
    some (natToBytesBE (derivedSeqNum mediaSeq i) 16)
  else declaredIV

/-- PNG file magic `b'\x89PNG'`. -/
def pngMagic : List Nat := [0x89, 0x50, 0x4E, 0x47]

/-- JPEG file magic `b'\xFF\xD8\xFF'`. -/
def jpegMagic : List Nat := [0xFF, 0xD8, 0xFF]

/-- Embeds `len(data) > 10 and (data.startswith(b'\x89PNG') or
data.startswith(b'\xFF\xD8\xFF'))` (`native_downloader.py` lines 228
and 244). -/
def hasImageMagic (data : List Nat) : Bool :=
  decide (10 < data.length) &&
    (pngMagic.isPrefixOf data || jpegMagic.isPrefixOf data)

/-- Embeds the loop body condition `data[i] == 0x47 and (i+188 <
len(data) and data[i+188] == 0x47)` (`native_downloader.py` line 231). -/
def isSyncAt (data : List Nat) (i : Nat) : Bool :=
  (data.getD i 0 == 0x47) &&
    (decide (i + 188 < data.length) && (data.getD (i + 188) 0 == 0x47))

/-- Embeds the scan loop `for i in range(min(len(data), 4096))` with
`break` on the first hit (`native_downloader.py` lines 230-233):
returns the first index `o` with `i ≤ o < bound` satisfying
`isSyncAt data o`, if any.  `fuel` only drives the recursion; with
`fuel = bound` starting from `i = 0` the whole range is scanned. -/
def findSyncFrom (data : List Nat) (bound : Nat) : Nat → Nat → Option Nat
  | 0, _ => none
  | fuel + 1, i =>
    if i < bound then
      if isSyncAt data i then some i
      else findSyncFrom data bound fuel (i + 1)
    else none

/-- The `sync_offset` computed by the scan (`-1` becomes `none`). -/
def findSyncOffset (data : List Nat) : Option Nat :=
  findSyncFrom data (min data.length 4096) (min data.length 4096) 0

/-- Embeds one full corruption pre-check (`native_downloader.py` lines
228-234 and, identically, 244-250): when the body is wrapped in an
image magic, drop everything before the first transport-stream sync
offset (only when that offset is strictly positive, as the source
tests `sync_offset > 0`). -/
def stripFakeHeader (data : List Nat) : List Nat :=
  if hasImageMagic data then
    match findSyncOffset data with
    | some o => if 0 < o then data.drop o else data
    | none => data
  else data

/-- Embeds `_download_segment_core` (`native_downloader.py` lines
214-255) acting on one HTTP response.  `dec key iv body` abstracts
`AES.new(key, AES.MODE_CBC, iv).decrypt(body)`; `none` models the
`except: pass` branch in which the still-encrypted bytes are kept.
The result is `some bytes` for the bytes written to the segment file
(and `return True`), `none` for `return False`. -/
def downloadSegmentCore (dec : List Nat → List Nat → List Nat → Option (List Nat))
    (key iv : Option (List Nat)) (resp : Option (Nat × List Nat)) :
    Option (List Nat) :=
  match resp with
  | none => none
  | some (status, body) =>
    if status ≠ 200 then none
    else
      let d1 := stripFakeHeader body
      let d2 :=
        match key, iv with
        | some k, some v =>
          if bytesTruthy (some k) && bytesTruthy (some v) then
            (dec k v d1).getD d1
          else d1
        | _, _ => d1
      some (stripFakeHeader d2)

/-- Network-environment form of `downloadSegmentCore`: the single
`session.get(url, timeout=timeout)` of the source consumes exactly the
next response of the environment `env`; the rest of `env` is what later
calls would see. -/
def downloadSegmentCoreEnv (dec : List Nat → List Nat → List Nat → Option (List Nat))
    (key iv : Option (List Nat)) (env : List (Option (Nat × List Nat))) :
    Option (List Nat) × List (Option (Nat × List Nat)) :=
  (downloadSegmentCore dec key iv (env.headD none), env.drop 1)

/-- An attempt fails when the transport errors out or the status is not
200 (`native_downloader.py` lines 222-223 and 254-255). -/
def attemptFails : Option (Nat × List Nat) → Bool
  | none => true
  | some (status, _) => status ≠ 200

/-- Embeds one segment-file existence test `os.path.exists(t[1]) and
os.path.getsize(t[1]) > 0` (`native_downloader.py` line 123;
`browser_downloader.py` line 145): `store k` is the size of segment
file `k` or `none` when the file is absent. -/
def segmentDone (store : Nat → Option Nat) (k : Nat) : Bool :=
  match store k with
  | none => false
  | some sz => decide (0 < sz)

/-- Embeds the per-round pending selection `pending = [t for t in
all_tasks if not (os.path.exists(t[1]) and os.path.getsize(t[1]) > 0)]`
(`native_downloader.py` line 123): the indices, in task order, whose
file is absent or zero-sized.  Only these are submitted to the worker
pool in the round. -/
def pendingTasks (store : Nat → Option Nat) (total : Nat) : List Nat :=
  (List.range total).filter (fun k => !segmentDone store k)

/-- Embeds the adaptive round loop of `native_downloader.py` lines
114-183, abstracted over the number `succ r` of segments the network
lets round `r` complete (clamped to the pending count, since a round
completes at most the tasks it dispatched).  State: `pending` files
still missing, `cnp` = `consecutive_no_progress`, `round` =
`round_idx` before the `round_idx += 1` at the top of the body.
Result `some (pendingLeft, rounds)`: the loop broke after executing
`rounds` rounds with `pendingLeft` segments still missing —
`pendingLeft = 0` is the `"所有片段下載完成"` break, `pendingLeft > 0`
the dead-lock (`Blocked`) break at line 181.  `none` means the fuel ran
out (shown unreachable below). -/
def runLoop (succ : Nat → Nat) : Nat → Nat → Nat → Nat → Option (Nat × Nat)
  | 0, _, _, _ => none
  | fuel + 1, pending, cnp, round =>
    if pending = 0 then some (0, round + 1)
    else
      let s := min (succ (round + 1)) pending
      let cnp2 := if 0 < s then 0 else cnp + 1
      if 5 ≤ cnp2 ∧ 1 < round + 1 then some (pending - s, round + 1)
      else runLoop succ fuel (pending - s) cnp2 (round + 1)

/-- Embeds the acceptance decision of `native_downloader.py` lines
188-194: with `final_count` segment files present and non-empty out of
`total_segs`, merging proceeds unless `final_count < total_segs` and
not `final_count > total_segs * 0.8`.  The float comparison is modelled
exactly by the rational `5 * finalCount > 4 * total`; at the spec's
decision points (`total = 10`) the double `10 * 0.8` is exactly `8.0`,
so the two agree there. -/
def nativeAssembleProceeds (finalCount total : Nat) : Bool :=
  if finalCount < total then decide (4 * total < 5 * finalCount) else true

/-- Embeds the acceptance decision of `browser_downloader.py` lines
189-191: the job fails iff `success_count < total_segments * 0.8`,
modelled by the rational `5 * successCount < 4 * total`. -/
def browserAssembleProceeds (successCount total : Nat) : Bool :=
  !decide (5 * successCount < 4 * total)

/-- End-to-end model of `NativeHLSDownloader.download`
(`native_downloader.py` lines 48-208), restricted to the parts the
claims are about: the single up-front key fetch (lines 74-91, with
`return False` on a non-200 key response), then the round loop, then
the acceptance decision on the final file count.  `hasKeyUri` is
whether the playlist declares a key with a URI, `keyStatus` the HTTP
status of the one key request, `succ` the per-round completions, and
`total` the segment count.  Result: `true` iff the job reaches the
merge step (an output is produced). -/
def downloadModel (hasKeyUri : Bool) (keyStatus : Nat) (succ : Nat → Nat)
    (total : Nat) : Bool :=
  if hasKeyUri && keyStatus ≠ 200 then false
  else
    match runLoop succ (7 * total + 7) total 0 0 with
    | none => false
    | some (pendingLeft, _) => nativeAssembleProceeds (total - pendingLeft) total

/-- Embeds the merge loop of `native_downloader.py` lines 196-200 up to
task index `k`: `files = [t[1] for t in all_tasks if
os.path.exists(t[1])]` concatenated in task order (`store k` is the
byte content of segment file `k`, `none` when absent; an absent file
contributes nothing). -/
def mergedUpTo (store : Nat → Option (List Nat)) : Nat → List Nat
  | 0 => []
  | k + 1 => mergedUpTo store k ++ ((store k).getD [])

/-- The full assembled output of a job with `total` tasks. -/
def mergedOutput (store : Nat → Option (List Nat)) (total : Nat) : List Nat :=
  mergedUpTo store total

/-- State of the CDP response handler of
`playwright_downloader - (穩定版).py`: persisted URLs (`segments_map`
keys, URLs abstracted to identities), the fingerprint set `seen_fingerprints`
of MD5 digests, and the persisted file contents in write order. -/
structure DedupState where
  segmentsMap : List Nat
  seen : List Nat
  files : List (List Nat)
deriving Repr, DecidableEq

/-- Embeds the segment branch of `on_cdp_response`
(`playwright_downloader - (穩定版).py` lines 208-236): drop the event if
the URL was already persisted; if the body exceeds 1024 bytes, compute
its digest (`md5` abstracts `hashlib.md5(...).hexdigest()`), drop the
event if the digest is already in the fingerprint set, and otherwise
record the fingerprint, write the file, and record the URL. -/
def onSegmentResponse (md5 : List Nat → Nat) (st : DedupState)
    (url : Nat) (body : List Nat) : DedupState :=
  if st.segmentsMap.contains url then st
  else if 1024 < body.length then
    let h := md5 body
    if st.seen.contains h then st
    else
      { segmentsMap := url :: st.segmentsMap
        seen := h :: st.seen
        files := st.files ++ [body] }
  else st

/-- Concrete wrapped segment body used in the corruption-stripping
claims: PNG magic, 33 bytes of junk, then a transport-stream pattern
whose sync bytes `0x47` sit at offsets 37, 225 and 413 of the whole
body (stride 188, first sync at offset 37). -/
def wrappedSample : List Nat :=
  pngMagic ++ List.replicate 33 0x11 ++
    (List.range 377).map (fun j => if j % 188 = 0 then 0x47 else 0x11)

/-! ## Theorems -/

/-- C3: for every encrypted segment whose key declaration carries no
explicit IV, the IV used for AES-128-CBC decryption is the 16-byte
big-endian encoding of the segment's media-sequence number.  The
playlist parser numbers segment `i` with media-sequence `start + i`
(`start ≥ 0` the playlist's declared starting sequence), so the value
is quantified in that form: when `start + i = 0` the code's positional
fallback coincides with the sequence number.  In particular, for
sequence 5 the IV is 15 zero bytes followed by `0x05`. -/
theorem derivedIV_eq_bigendian_seq :
    (∀ start i : Nat,
      derivedIV true none (some (start + i)) i
        = some (natToBytesBE (start + i) 16))
    ∧ natToBytesBE 5 16 = [0, 0, 0, 0, 0, 0, 0, 0, 0, 0, 0, 0, 0, 0, 0, 5] := by
  constructor
  · intro start i
    have h : derivedSeqNum (some (start + i)) i = start + i := by
      simp only [derivedSeqNum]
      split
      · omega
      · rfl
    simp [derivedIV, bytesTruthy, h]
  · decide

/-- C10: when a key applies and no explicit IV is declared, a segment
whose parsed media-sequence number is absent (`none`) or equal to `0`
(Python falsiness) gets its IV from the zero-based array position `i`,
while a non-zero media-sequence number is used as is. -/
theorem derivedIV_zero_seq_uses_position (i n : Nat) (h : n ≠ 0) :
    derivedIV true none none i = some (natToBytesBE i 16)
    ∧ derivedIV true none (some 0) i = some (natToBytesBE i 16)
    ∧ derivedIV true none (some n) i = some (natToBytesBE n 16) := by
  refine ⟨?_, ?_, ?_⟩ <;>
    simp [derivedIV, bytesTruthy, derivedSeqNum, h]

/-- Witness for C10 at `i = 3`, `n = 7`. -/
theorem derivedIV_zero_seq_uses_position_witness :
    derivedIV true none none 3 = some (natToBytesBE 3 16)
    ∧ derivedIV true none (some 0) 3 = some (natToBytesBE 3 16)
    ∧ derivedIV true none (some 7) 3 = some (natToBytesBE 7 16) :=
  derivedIV_zero_seq_uses_position 3 7 (by decide)

/-- C1 counterexample: the claim says that at exactly 80%
(`total = 10`, `doneWithContent = 8`) assembly proceeds, but the native
downloader's check `final_count > total_segs * 0.8` is strict, so the
job fails there. -/
theorem acceptance_at_exact_80_percent_fails :
    nativeAssembleProceeds 8 10 = false := by decide

/-- C1 amended: in the native downloader assembly proceeds iff every
segment is present or the success ratio is strictly above 0.8 (so 9/10
proceeds and both 8/10 and 7/10 fail with no output), while the browser
variant's check accepts a ratio at or above 0.8 (8/10 proceeds, 7/10
fails). -/
theorem acceptance_threshold_characterization :
    (∀ finalCount total : Nat,
      nativeAssembleProceeds finalCount total
        = decide (total ≤ finalCount ∨ 4 * total < 5 * finalCount))
    ∧ nativeAssembleProceeds 9 10 = true
    ∧ nativeAssembleProceeds 7 10 = false
    ∧ browserAssembleProceeds 8 10 = true
    ∧ browserAssembleProceeds 7 10 = false := by
  refine ⟨?_, by decide, by decide, by decide, by decide⟩
  intro fc total
  by_cases h : fc < total
  · simp only [nativeAssembleProceeds, if_pos h, decide_eq_decide]
    omega
  · simp only [nativeAssembleProceeds, if_neg h]
    have htot : total ≤ fc := Nat.le_of_not_lt h
    simp [htot]

/-- C8 counterexample: the claim says a failure is surfaced only after
all 3 attempts of a call have failed, but `_download_segment_core`
performs a single `session.get`: with an environment whose first
attempt errors out and whose second attempt would succeed, the call
still reports failure (and the successful response is left unconsumed). -/
theorem single_attempt_refutes_three_retries :
    (downloadSegmentCoreEnv (fun _ _ _ => none) none none
        [none, some (200, [0x47])]).1 = none
    ∧ attemptFails (some (200, [0x47])) = false := by
  exact ⟨rfl, rfl⟩

/-- C8 amended: each invocation of the per-segment fetch unit makes
exactly one attempt: it consumes exactly one response from the network
environment, and succeeds iff that single attempt does not fail; a
failure is surfaced to the scheduler immediately. -/
theorem downloadSegmentCore_one_attempt
    (dec : List Nat → List Nat → List Nat → Option (List Nat))
    (key iv : Option (List Nat)) (env : List (Option (Nat × List Nat))) :
    (downloadSegmentCoreEnv dec key iv env).2 = env.drop 1
    ∧ ((downloadSegmentCoreEnv dec key iv env).1.isSome
        = !attemptFails (env.headD none)) := by
  refine ⟨rfl, ?_⟩
  have h2 : ∀ r, (downloadSegmentCore dec key iv r).isSome = !attemptFails r := by
    intro r
    cases r with
    | none => rfl
    | some p =>
      obtain ⟨st, body⟩ := p
      by_cases h : st = 200
      · subst h
        simp [downloadSegmentCore, attemptFails]
      · simp [downloadSegmentCore, attemptFails, h]
  exact h2 (env.headD none)

/-- C7 counterexample: the claim says a key-fetch failure never
terminates the whole Job by itself, but the native downloader fetches
the key once, up front, and returns failure for the whole Job on a
non-200 key response: with every segment fetchable (6 then all rounds
succeed), the job fails with key status 404 and succeeds with 200. -/
theorem key_failure_terminates_job :
    downloadModel true 404 (fun _ => 10) 10 = false
    ∧ downloadModel true 200 (fun _ => 10) 10 = true := by
  exact ⟨by decide, by decide⟩

/-- C7 amended: a network/HTTP failure on the single up-front key fetch
immediately fails the whole Job, before any fetch round runs; the key
fetch is not retried in later rounds. -/
theorem key_failure_fatal (keyStatus : Nat) (succ : Nat → Nat) (total : Nat)
    (h : keyStatus ≠ 200) :
    downloadModel true keyStatus succ total = false := by
  simp [downloadModel, h]

/-- Witness for the amended C7 at key status 404. -/
theorem key_failure_fatal_witness :
    downloadModel true 404 (fun _ => 3) 3 = false :=
  key_failure_fatal 404 (fun _ => 3) 3 (by decide)

/-- Step lemma: a round starting with no pending segment breaks out as
completed. -/
theorem runLoop_step_done (succ : Nat → Nat) (fuel c r : Nat) :
    runLoop succ (fuel + 1) 0 c r = some (0, r + 1) := by
  simp [runLoop]

/-- Step lemma: a round that completes at least one segment resets the
no-progress counter and continues. -/
theorem runLoop_step_progress (succ : Nat → Nat) (fuel p c r : Nat)
    (hp : p ≠ 0) (hs : 0 < min (succ (r + 1)) p) :
    runLoop succ (fuel + 1) p c r
      = runLoop succ fuel (p - min (succ (r + 1)) p) 0 (r + 1) := by
  simp only [runLoop, if_neg hp, if_pos hs]
  rw [if_neg]
  omega

/-- Step lemma: a round with no progress whose incremented counter hits
the threshold after round 1 breaks out blocked. -/
theorem runLoop_step_stall_block (succ : Nat → Nat) (fuel p c r : Nat)
    (hp : p ≠ 0) (hs : min (succ (r + 1)) p = 0)
    (hb : 5 ≤ c + 1 ∧ 1 < r + 1) :
    runLoop succ (fuel + 1) p c r = some (p, r + 1) := by
  simp only [runLoop, if_neg hp, hs]
  rw [if_neg (show ¬(0 : Nat) < 0 by omega), if_pos hb]
  simp

/-- Step lemma: a round with no progress below the threshold (or in
round 1) increments the counter and continues. -/
theorem runLoop_step_stall (succ : Nat → Nat) (fuel p c r : Nat)
    (hp : p ≠ 0) (hs : min (succ (r + 1)) p = 0)
    (hb : ¬(5 ≤ c + 1 ∧ 1 < r + 1)) :
    runLoop succ (fuel + 1) p c r = runLoop succ fuel p (c + 1) (r + 1) := by
  simp only [runLoop, if_neg hp, hs]
  rw [if_neg (show ¬(0 : Nat) < 0 by omega), if_neg hb]
  simp

/-- Fuel sufficiency for the round loop: the measure
`7·pending + (5 − cnp) + (1 if round = 0)` strictly decreases on every
recursive step, so any fuel above it makes the loop reach a break. -/
theorem runLoop_isSome_of_fuel (succ : Nat → Nat) :
    ∀ fuel pending cnp round,
      7 * pending + (5 - cnp) + (if round = 0 then 1 else 0) < fuel →
      cnp ≤ 5 → (round = 0 → cnp = 0) →
      (runLoop succ fuel pending cnp round).isSome = true := by
  intro fuel
  induction fuel with
  | zero => intro p c r h _ _; omega
  | succ fuel ih =>
    intro p c round hμ hc5 hr0
    by_cases hp : p = 0
    · subst hp
      rw [runLoop_step_done]
      rfl
    · by_cases hs : 0 < min (succ (round + 1)) p
      · rw [runLoop_step_progress succ fuel p c round hp hs]
        have hsle : min (succ (round + 1)) p ≤ p := Nat.min_le_right _ _
        apply ih
        · have hne : ¬(round + 1 = 0) := Nat.succ_ne_zero round
          rw [if_neg hne]
          by_cases hr : round = 0
          · rw [if_pos hr] at hμ
            omega
          · rw [if_neg hr] at hμ
            omega
        · omega
        · intro h
          exact absurd h (Nat.succ_ne_zero round)
      · have hs0 : min (succ (round + 1)) p = 0 := Nat.eq_zero_of_not_pos hs
        by_cases hb : 5 ≤ c + 1 ∧ 1 < round + 1
        · rw [runLoop_step_stall_block succ fuel p c round hp hs0 hb]
          rfl
        · rw [runLoop_step_stall succ fuel p c round hp hs0 hb]
          apply ih
          · have hne : ¬(round + 1 = 0) := Nat.succ_ne_zero round
            rw [if_neg hne]
            by_cases hr : round = 0
            · have hc0 : c = 0 := hr0 hr
              rw [if_pos hr] at hμ
              omega
            · rw [if_neg hr] at hμ
              omega
          · omega
          · intro h
            exact absurd h (Nat.succ_ne_zero round)


/-- C5: the round loop always terminates — starting from the real
initial state (`cnp = 0`, `round = 0`, any per-round completion
oracle), fuel `7·total + 7` always reaches a break, because each round
either completes a segment (resetting the counter, shrinking pending)
or increments the counter toward the threshold of 5; and on the trace
where round 1 completes 6 of 10 segments and every later round
completes 0, the loop breaks Blocked after round 6 with the 4 missing
segments still pending. -/
theorem scheduler_terminates_and_blocks :
    (∀ (succ : Nat → Nat) (total : Nat),
      (runLoop succ (7 * total + 7) total 0 0).isSome = true)
    ∧ runLoop (fun r => if r = 1 then 6 else 0) 77 10 0 0 = some (4, 6) := by
  constructor
  · intro succ total
    apply runLoop_isSome_of_fuel
    · rw [if_pos rfl]
      omega
    · omega
    · intro _
      rfl
  · decide

/-- C9: a round dispatches exactly the segments whose file is absent or
zero-sized — a segment whose file already exists with non-zero size is
never in the dispatched pending list (so it is neither re-fetched nor
re-decrypted), and every incomplete segment index below `total` is. -/
theorem resume_skips_existing_segments (store : Nat → Option Nat)
    (total k : Nat) :
    (segmentDone store k = true → k ∉ pendingTasks store total)
    ∧ (k < total → segmentDone store k = false →
        k ∈ pendingTasks store total) := by
  constructor
  · intro hd hmem
    rw [pendingTasks, List.mem_filter] at hmem
    rw [hd] at hmem
    simp at hmem
  · intro hk hnd
    rw [pendingTasks, List.mem_filter]
    refine ⟨List.mem_range.mpr hk, ?_⟩
    rw [hnd]
    rfl

/-- Witness for C9: with segment 0 already stored with size 5 and
segment 1 missing, only segment 1 is dispatched. -/
theorem resume_skips_existing_segments_witness :
    0 ∉ pendingTasks (fun k => if k = 0 then some 5 else none) 2
    ∧ 1 ∈ pendingTasks (fun k => if k = 0 then some 5 else none) 2 :=
  ⟨(resume_skips_existing_segments (fun k => if k = 0 then some 5 else none)
      2 0).1 (by decide),
   (resume_skips_existing_segments (fun k => if k = 0 then some 5 else none)
      2 1).2 (by decide) (by decide)⟩

/-- The merge prefix is monotone: the output for a larger task index
extends the output for a smaller one. -/
theorem mergedUpTo_mono (store : Nat → Option (List Nat)) :
    ∀ {a b : Nat}, a ≤ b →
      ∃ t, mergedUpTo store b = mergedUpTo store a ++ t := by
  intro a b hab
  induction b with
  | zero =>
    have ha : a = 0 := Nat.le_zero.mp hab
    subst ha
    exact ⟨[], by simp⟩
  | succ b ih =>
    rcases Nat.lt_succ_iff_lt_or_eq.mp (Nat.lt_succ_of_le hab) with h | h
    · obtain ⟨t, ht⟩ := ih (Nat.le_of_lt_succ (Nat.succ_le_of_lt h))
      refine ⟨t ++ (store b).getD [], ?_⟩
      rw [show mergedUpTo store (b + 1)
            = mergedUpTo store b ++ (store b).getD [] from rfl, ht,
        List.append_assoc]
    · subst h
      exact ⟨[], by simp⟩

/-- C2: the assembled output concatenates the persisted segment buffers
in ascending sequence order.  Task `k` carries media-sequence
`start + k`, so for two persisted segments whose sequences satisfy
`start + i < start + j`, the bytes `bi` of the lower sequence appear in
the merged output strictly before the bytes `bj` of the higher one,
whatever order the two completed in (the output depends only on the
final store). -/
theorem assembly_ordered_by_sequence (store : Nat → Option (List Nat))
    (total start i j : Nat) (bi bj : List Nat)
    (hseq : start + i < start + j) (hj : j < total)
    (hsi : store i = some bi) (hsj : store j = some bj) :
    ∃ A B C, mergedOutput store total = A ++ bi ++ B ++ bj ++ C := by
  have hij : i < j := by omega
  obtain ⟨t1, ht1⟩ := mergedUpTo_mono store (show i + 1 ≤ j from hij)
  obtain ⟨t2, ht2⟩ := mergedUpTo_mono store (show j + 1 ≤ total from hj)
  have hi1 : mergedUpTo store (i + 1) = mergedUpTo store i ++ bi := by
    rw [show mergedUpTo store (i + 1)
          = mergedUpTo store i ++ (store i).getD [] from rfl, hsi]
    rfl
  have hj1 : mergedUpTo store (j + 1) = mergedUpTo store j ++ bj := by
    rw [show mergedUpTo store (j + 1)
          = mergedUpTo store j ++ (store j).getD [] from rfl, hsj]
    rfl
  refine ⟨mergedUpTo store i, t1, t2, ?_⟩
  calc mergedOutput store total
      = mergedUpTo store (j + 1) ++ t2 := ht2
    _ = (mergedUpTo store j ++ bj) ++ t2 := by rw [hj1]
    _ = ((mergedUpTo store (i + 1) ++ t1) ++ bj) ++ t2 := by rw [ht1]
    _ = (((mergedUpTo store i ++ bi) ++ t1) ++ bj) ++ t2 := by rw [hi1]
    _ = mergedUpTo store i ++ bi ++ t1 ++ bj ++ t2 := by
        simp [List.append_assoc]

/-- Witness for C2: a two-segment store assembled in sequence order. -/
theorem assembly_ordered_by_sequence_witness :
    ∃ A B C,
      mergedOutput
        (fun k => if k = 0 then some [1] else if k = 1 then some [2, 3] else none)
        2 = A ++ [1] ++ B ++ [2, 3] ++ C :=
  assembly_ordered_by_sequence
    (fun k => if k = 0 then some [1] else if k = 1 then some [2, 3] else none)
    2 4 0 1 [1] [2, 3] (by decide) (by decide) rfl rfl

/-- C4: feeding the deduplicating response handler the same byte
content twice under two distinct segment identities persists exactly
one file: the first call writes the content and records its digest in
the fingerprint set, and any later call whose content digest is already
recorded (here, the second call) leaves the state — in particular the
persisted files — unchanged. -/
theorem dedup_same_content_persisted_once (md5 : List Nat → Nat)
    (st0 : DedupState) (u1 u2 : Nat) (b : List Nat)
    (hlen : 1024 < b.length)
    (hu1 : st0.segmentsMap.contains u1 = false)
    (hu2 : (u1 :: st0.segmentsMap).contains u2 = false)
    (hseen : st0.seen.contains (md5 b) = false) :
    (onSegmentResponse md5 st0 u1 b).files = st0.files ++ [b]
    ∧ (onSegmentResponse md5 st0 u1 b).seen.contains (md5 b) = true
    ∧ onSegmentResponse md5 (onSegmentResponse md5 st0 u1 b) u2 b
        = onSegmentResponse md5 st0 u1 b
    ∧ ∀ (st : DedupState) (u : Nat) (b2 : List Nat),
        st.seen.contains (md5 b2) = true →
        st.segmentsMap.contains u = false →
        onSegmentResponse md5 st u b2 = st := by
  have hlater : ∀ (st : DedupState) (u : Nat) (b2 : List Nat),
      st.seen.contains (md5 b2) = true →
      st.segmentsMap.contains u = false →
      onSegmentResponse md5 st u b2 = st := by
    intro st u b2 hsn hu
    rw [onSegmentResponse, hu]
    have hsn2 : md5 b2 ∈ st.seen := by
      simpa using hsn
    simp [hsn2]
  have h1 : onSegmentResponse md5 st0 u1 b =
      { segmentsMap := u1 :: st0.segmentsMap
        seen := md5 b :: st0.seen
        files := st0.files ++ [b] } := by
    rw [onSegmentResponse, hu1]
    have hseen2 : md5 b ∉ st0.seen := by
      simpa using hseen
    simp [hlen, hseen2]
  refine ⟨by rw [h1], by rw [h1]; simp, ?_, hlater⟩
  apply hlater
  · rw [h1]
    simp
  · rw [h1]
    exact hu2

/-- Witness for C4: same 1025-byte content fed twice under identities
0 and 1 starting from the empty state. -/
theorem dedup_same_content_persisted_once_witness :
    (onSegmentResponse List.length ⟨[], [], []⟩ 0 (List.replicate 1025 7)).files
      = [] ++ [List.replicate 1025 7]
    ∧ (onSegmentResponse List.length ⟨[], [], []⟩ 0
        (List.replicate 1025 7)).seen.contains
          (List.length (List.replicate 1025 7)) = true
    ∧ onSegmentResponse List.length
        (onSegmentResponse List.length ⟨[], [], []⟩ 0 (List.replicate 1025 7))
        1 (List.replicate 1025 7)
      = onSegmentResponse List.length ⟨[], [], []⟩ 0 (List.replicate 1025 7) :=
  ⟨(dedup_same_content_persisted_once List.length ⟨[], [], []⟩ 0 1
      (List.replicate 1025 7) (by rw [List.length_replicate]; omega) rfl
      (by decide) rfl).1,
   (dedup_same_content_persisted_once List.length ⟨[], [], []⟩ 0 1
      (List.replicate 1025 7) (by rw [List.length_replicate]; omega) rfl
      (by decide) rfl).2.1,
   (dedup_same_content_persisted_once List.length ⟨[], [], []⟩ 0 1
      (List.replicate 1025 7) (by rw [List.length_replicate]; omega) rfl
      (by decide) rfl).2.2.1⟩

/-- The scan returns the first qualifying offset at or after its start
index, and that offset lies below the bound. -/
theorem findSyncFrom_first (data : List Nat) (bound : Nat) :
    ∀ fuel i o, findSyncFrom data bound fuel i = some o →
      i ≤ o ∧ o < bound ∧ isSyncAt data o = true
      ∧ ∀ k, i ≤ k → k < o → isSyncAt data k = false := by
  intro fuel
  induction fuel with
  | zero =>
    intro i o h
    exact absurd h (by simp [findSyncFrom])
  | succ fuel ih =>
    intro i o h
    simp only [findSyncFrom] at h
    by_cases hib : i < bound
    · rw [if_pos hib] at h
      cases hsync : isSyncAt data i with
      | true =>
        rw [if_pos hsync] at h
        have ho : i = o := by
          injection h
        subst ho
        exact ⟨Nat.le_refl i, hib, hsync, fun k hk1 hk2 => by omega⟩
      | false =>
        rw [if_neg (by simp [hsync])] at h
        obtain ⟨h1, h2, h3, h4⟩ := ih (i + 1) o h
        refine ⟨by omega, h2, h3, ?_⟩
        intro k hk1 hk2
        rcases Nat.eq_or_lt_of_le hk1 with hk | hk
        · rw [← hk]
          exact hsync
        · exact h4 k hk hk2
    · rw [if_neg hib] at h
      exact absurd h (by simp)

set_option maxRecDepth 8000 in
/-- C6: on a body opening with a known image magic the fetcher scans at
most the first 4096 bytes for the `0x47`/188-stride sync pattern and
keeps only the bytes from the first such offset on; the same
check-and-strip runs again on the decrypted bytes.  Conjuncts: (1) the
strip drops exactly the bytes before the found offset; (2) the found
offset is the first qualifying one and lies below `min length 4096`;
(3) on the concrete PNG-wrapped body `wrappedSample`, whose first sync
offset is 37, the persisted payload starts at offset 37 with no leading
bytes; (4) fed through the full segment unit with a decrypt stage that
returns a wrapped body again, the post-decryption strip also leaves the
payload starting at its sync offset. -/
theorem corruption_precheck_strips_wrapper :
    (∀ (data : List Nat) (o : Nat), hasImageMagic data = true →
      findSyncOffset data = some o → 0 < o →
      stripFakeHeader data = data.drop o)
    ∧ (∀ (data : List Nat) (o : Nat), findSyncOffset data = some o →
      o < min data.length 4096 ∧ isSyncAt data o = true
      ∧ ∀ k, k < o → isSyncAt data k = false)
    ∧ stripFakeHeader wrappedSample = wrappedSample.drop 37
    ∧ downloadSegmentCore (fun _ _ _ => some wrappedSample)
        (some (List.replicate 16 1)) (some (List.replicate 16 0))
        (some (200, wrappedSample))
      = some (wrappedSample.drop 37) := by
  refine ⟨?_, ?_, by decide, by decide⟩
  · intro data o hmagic hfind ho
    rw [stripFakeHeader, if_pos hmagic, hfind]
    simp [ho]
  · intro data o hfind
    obtain ⟨_, h2, h3, h4⟩ :=
      findSyncFrom_first data (min data.length 4096)
        (min data.length 4096) 0 o hfind
    exact ⟨h2, h3, fun k hk => h4 k (Nat.zero_le k) hk⟩

set_option maxRecDepth 8000 in
/-- Witness for C6, applying the general strip conjunct to the concrete
wrapped body. -/
theorem corruption_precheck_strips_wrapper_witness :
    stripFakeHeader wrappedSample = wrappedSample.drop 37 :=
  corruption_precheck_strips_wrapper.1 wrappedSample 37 (by decide)
    (by decide) (by decide)

end HLSEngine
